import Mathlib

/-!
Shallow embedding of the DrawMySTEP core geometry pipeline:
`step_laser/projection.py` (profile extraction), `step_laser/optimizer.py`
(minimum-bounding-rectangle rotation optimization) and the standalone 2D
rotation tool `dxf_min_bound/main.py`.

Modelling conventions:
- Python floats are modelled as exact rationals (ℚ); `math.pi` becomes the
  rational constant `piApprox` below.
- External library calls (`math.atan2`, `math.cos`, `math.sin`,
  `numpy.linalg.norm`'s square root, shapely's `minimum_rotated_rectangle`)
  are modelled as function parameters: the embedded code is parametric in
  those collaborators, exactly as the Python code is parametric in the
  libraries it links against.
- CAD-kernel objects (faces, wires, boundary curves with parametric
  evaluation) are modelled as plain data carrying the values the source
  actually reads from them.
- A Python function that can raise for some input is embedded with an
  `Option` result; `none` models the raise.
-/

namespace DrawMySTEP

/-- The value of `math.pi` used by the source for every angle conversion,
modelled as a rational constant. -/
def piApprox : ℚ := 3.141592653589793

/-- Python `math.degrees`: radians to degrees. -/
def degreesOf (r : ℚ) : ℚ := r * 180 / piApprox

/-- Python `math.radians`: degrees to radians. -/
def radiansOf (d : ℚ) : ℚ := d * piApprox / 180

/-- Python's `%` on floats with a positive divisor: result carries the sign
of the divisor, i.e. `a - m * floor (a / m)`. -/
def pymod (a m : ℚ) : ℚ := a - m * ⌊a / m⌋

/-- Python's `int(...)` truncation toward zero. -/
def truncInt (q : ℚ) : ℤ := if 0 ≤ q then ⌊q⌋ else -⌊-q⌋

/-- Source `_normalize_angle` from `projection.py`: `a % 360`, then a (dead, for a
positive divisor) correction branch for negative remainders. -/
def normalizeAngle (a : ℚ) : ℚ :=
  let r := pymod a 360
  if r < 0 then r + 360 else r

/-- The three coordinate axes, in the enumeration order used by the
`AXIS_VECTORS` table and the `extents` dict of `projection.py`. -/
inductive Axis where
  | X
  | Y
  | Z
deriving DecidableEq, Repr

/-- Position of an axis in the enumeration order X, Y, Z. -/
def axIdx : Axis → ℕ
  | .X => 0
  | .Y => 1
  | .Z => 2

/-- A 3D point as handed over by the CAD kernel. -/
structure P3 where
  x : ℚ
  y : ℚ
  z : ℚ
deriving DecidableEq, Repr

/-- Source `_drop_axis`: project a 3D point to 2D by dropping the extrusion axis. -/
def dropAxis (p : P3) (axis : Axis) : ℚ × ℚ :=
  match axis with
  | .X => (p.y, p.z)
  | .Y => (p.x, p.z)
  | .Z => (p.x, p.y)

/-- Component of a vector along an axis: `normal.Dot(axis_vec)` for the unit
axis vectors of the `AXIS_VECTORS` table. -/
def axisComp (p : P3) (a : Axis) : ℚ :=
  match a with
  | .X => p.x
  | .Y => p.y
  | .Z => p.z

/-- The 2D primitives of `projection.py`: `Line2D`, `Circle2D`, `Arc2D`
(center, radius, start angle in degrees, signed sweep in degrees, cached
start/end points) and `Polyline2D`. -/
inductive Edge2D where
  | line (x1 y1 x2 y2 : ℚ)
  | circle (cx cy r : ℚ)
  | arc (cx cy r startDeg sweepDeg x1 y1 x2 y2 : ℚ)
  | polyline (points : List (ℚ × ℚ))
deriving DecidableEq, Repr

/-- A boundary curve as the code reads it off `BRepAdaptor_Curve`: a
classified type, the parametric domain `[first, last]`, and the point
evaluations the code performs.  For a circular curve the code evaluates the
curve at `first`, `last` and the parametric midpoint; those three kernel
evaluations are carried as data.  For any other curve type the kernel's
`Value` is carried as a function, since the code tessellates it at a
span-dependent number of parameters. -/
inductive Curve3D where
  | lineC (first last : ℚ) (pFirst pLast : P3)
  | circleC (first last : ℚ) (center : P3) (radius : ℚ) (pFirst pLast pMid : P3)
  | otherC (first last : ℚ) (eval : ℚ → P3)

/-- The sweep computation of the circular-arc branch of
`_extract_edges_from_wire` (projection.py lines 169-182): CCW sweep from
start to end normalized to `[0,360)`, `0` promoted to `360`, direction
disambiguated by whether the midpoint angle falls inside the CCW sweep. -/
def arcSweep (startDeg endDeg midDeg : ℚ) : ℚ :=
  let ccw0 := normalizeAngle (endDeg - startDeg)
  let ccw := if ccw0 = 0 then 360 else ccw0
  let midFromStart := normalizeAngle (midDeg - startDeg)
  if midFromStart ≤ ccw + 1/2 then ccw else ccw - 360

/-- One iteration of the edge loop of `_extract_edges_from_wire`:
the primitive emitted for one boundary curve, `none` when the curve is
skipped as degenerate.  `at2` models `math.atan2`. -/
def processCurve (at2 : ℚ → ℚ → ℚ) (c : Curve3D) (axis : Axis) (scale : ℚ) :
    Option Edge2D :=
  match c with
  | .lineC first last pF pL =>
    if |last - first| < 1/1000 then none
    else
      some (.line ((dropAxis pF axis).1 * scale) ((dropAxis pF axis).2 * scale)
                  ((dropAxis pL axis).1 * scale) ((dropAxis pL axis).2 * scale))
  | .circleC first last center radius pF pL pM =>
    if |last - first| < 1/1000 then none
    else
      let cx := (dropAxis center axis).1 * scale
      let cy := (dropAxis center axis).2 * scale
      let r := radius * scale
      let u1 := (dropAxis pF axis).1 * scale
      let v1 := (dropAxis pF axis).2 * scale
      let u2 := (dropAxis pL axis).1 * scale
      let v2 := (dropAxis pL axis).2 * scale
      if |last - first - 2 * piApprox| < 1/1000000 then
        some (.circle cx cy r)
      else
        let startDeg := degreesOf (at2 (v1 - cy) (u1 - cx))
        let endDeg := degreesOf (at2 (v2 - cy) (u2 - cx))
        let um := (dropAxis pM axis).1 * scale
        let vm := (dropAxis pM axis).2 * scale
        let midDeg := degreesOf (at2 (vm - cy) (um - cx))
        some (.arc cx cy r startDeg (arcSweep startDeg endDeg midDeg) u1 v1 u2 v2)
  | .otherC first last ev =>
    if |last - first| < 1/1000 then none
    else
      let n : ℕ := max 20 (truncInt ((last - first) * 50)).toNat
      some (.polyline ((List.range (n + 1)).map (fun i =>
        let t := first + (last - first) * i / n
        ((dropAxis (ev t) axis).1 * scale, (dropAxis (ev t) axis).2 * scale))))

/-- Source `_extract_edges_from_wire`: primitives of a wire's curves, in traversal
order, skipping degenerate curves. -/
def extractEdgesFromWire (at2 : ℚ → ℚ → ℚ) (wire : List Curve3D) (axis : Axis)
    (scale : ℚ) : List Edge2D :=
  wire.filterMap (fun c => processCurve at2 c axis scale)

/-- A line segment, for the rectangle heuristic. -/
structure Seg where
  x1 : ℚ
  y1 : ℚ
  x2 : ℚ
  y2 : ℚ
deriving DecidableEq, Repr

/-- The `isinstance(e, Line2D)` filter of `_is_rectangle`. -/
def toSeg : Edge2D → Option Seg
  | .line x1 y1 x2 y2 => some ⟨x1, y1, x2, y2⟩
  | _ => none

/-- One adjacent-pair check of `_is_rectangle`: the normalized dot product
of the two direction vectors must not exceed `0.05` in magnitude.  `sqrtF`
models the square root inside `numpy.linalg.norm`. -/
def perpOk (sqrtF : ℚ → ℚ) (a b : Seg) : Bool :=
  let vax := a.x2 - a.x1
  let vay := a.y2 - a.y1
  let vbx := b.x2 - b.x1
  let vby := b.y2 - b.y1
  let dot := (vax * vbx + vay * vby) /
    (sqrtF (vax * vax + vay * vay) * sqrtF (vbx * vbx + vby * vby)
      + 1 / 1000000000000)
  decide (|dot| ≤ 1/20)

/-- Source `_is_rectangle`: true when the edge list consists of exactly 4 `Line2D`
segments whose adjacent pairs (cyclically) are all near-perpendicular. -/
def isRectangle (sqrtF : ℚ → ℚ) (edges : List Edge2D) : Bool :=
  let lines := edges.filterMap toSeg
  if lines.length = edges.length ∧ lines.length = 4 then
    match lines with
    | [a, b, c, d] =>
      perpOk sqrtF a b && perpOk sqrtF b c && perpOk sqrtF c d && perpOk sqrtF d a
    | _ => false
  else false

/-- A planar-or-not face as the extraction code reads it: the `"PLANE"`
geometry-type test, the face normal at the face center (`none` models
`normalAt` raising), the face area, and the boundary wires. -/
structure Face where
  isPlane : Bool
  normal : Option P3
  area : ℚ
  outerWire : List Curve3D
  innerWires : List (List Curve3D)

/-- A solid as read by `extract_profile`: bounding box and face list. -/
structure Solid where
  xmin : ℚ
  xmax : ℚ
  ymin : ℚ
  ymax : ℚ
  zmin : ℚ
  zmax : ℚ
  faces : List Face

/-- The `extents` dict of `extract_profile`. -/
def extents (s : Solid) : Axis → ℚ
  | .X => s.xmax - s.xmin
  | .Y => s.ymax - s.ymin
  | .Z => s.zmax - s.zmin

/-- Structure `ProfileResult` from `projection.py`. -/
structure ProfileResult where
  edges : List Edge2D
  wires : List (List Edge2D)
  thicknessInches : ℚ
  extrusionAxis : Axis

/-- The candidate-face filter of `extract_profile`: planar faces whose
normal is parallel to the axis within tolerance (`abs(dot) > 0.999`);
faces whose `normalAt` raises are skipped. -/
def candidateFaces (s : Solid) (axis : Axis) : List Face :=
  s.faces.filter (fun f =>
    f.isPlane && (match f.normal with
      | some n => decide (999/1000 < |axisComp n axis|)
      | none => false))

/-- Python's `max(faces, key=_face_area)`: first face of maximal area,
`none` on an empty list (where Python raises). -/
def maxByArea : List Face → Option Face
  | [] => none
  | f :: fs => some (fs.foldl (fun best g => if best.area < g.area then g else best) f)

/-- Edges of a face's outer wire, for a trial axis. -/
def faceOuterEdges (at2 : ℚ → ℚ → ℚ) (f : Face) (axis : Axis) (scale : ℚ) :
    List Edge2D :=
  extractEdgesFromWire at2 f.outerWire axis scale

/-- Edges of each inner (hole) wire of a face, in discovery order. -/
def faceInnerEdges (at2 : ℚ → ℚ → ℚ) (f : Face) (axis : Axis) (scale : ℚ) :
    List (List Edge2D) :=
  f.innerWires.map (fun iw => extractEdgesFromWire at2 iw axis scale)

/-- The `all_edges` list of `extract_profile`: outer edges followed by all
hole edges in discovery order. -/
def faceAllEdges (at2 : ℚ → ℚ → ℚ) (f : Face) (axis : Axis) (scale : ℚ) :
    List Edge2D :=
  faceOuterEdges at2 f axis scale ++ (faceInnerEdges at2 f axis scale).flatten

/-- One iteration of the axis loop of `extract_profile` (lines 222-267):
collect candidate faces for the axis (`continue` when none), pick the
largest, extract outer and hole edges, reject when the combined edge list
is a rectangle, otherwise build the `ProfileResult`. -/
def tryAxis (at2 : ℚ → ℚ → ℚ) (sqrtF : ℚ → ℚ) (s : Solid) (scale : ℚ)
    (axis : Axis) : Option ProfileResult :=
  match maxByArea (candidateFaces s axis) with
  | none => none
  | some bestFace =>
    if isRectangle sqrtF (faceAllEdges at2 bestFace axis scale) then none
    else
      some { edges := faceAllEdges at2 bestFace axis scale
             wires := faceOuterEdges at2 bestFace axis scale ::
               faceInnerEdges at2 bestFace axis scale
             thicknessInches := extents s axis * scale
             extrusionAxis := axis }

/-- Stable insertion into an extent-sorted axis list: the inserted axis goes
before the first element of greater-or-equal key, matching the stable
ascending `sorted(...)` of Python. -/
def insertAxis (key : Axis → ℚ) (a : Axis) : List Axis → List Axis
  | [] => [a]
  | b :: rest => if key a ≤ key b then a :: b :: rest else b :: insertAxis key a rest

/-- Source `sorted(extents.keys(), key=lambda a: extents[a])`: the three axes in
ascending extent order, ties kept in enumeration order X, Y, Z. -/
def sortAxes (key : Axis → ℚ) : List Axis :=
  List.foldr (insertAxis key) [] [Axis.X, Axis.Y, Axis.Z]

/-- The `for axis in axes_sorted` loop of `extract_profile`: first
non-rejected axis wins. -/
def loopAxes (at2 : ℚ → ℚ → ℚ) (sqrtF : ℚ → ℚ) (s : Solid) (scale : ℚ) :
    List Axis → Option ProfileResult
  | [] => none
  | a :: rest =>
    match tryAxis at2 sqrtF s scale a with
    | some r => some r
    | none => loopAxes at2 sqrtF s scale rest

/-- Source `extract_profile` (projection.py lines 206-302): try the axes in sorted
order; if every axis is rejected, fall back to the smallest axis with its
largest matching planar face, or the first face of the solid when no planar
face matches; `none` models the uncaught `IndexError` of
`shape.faces().vals()[0]` on a solid without faces. -/
def extract_profile (at2 : ℚ → ℚ → ℚ) (sqrtF : ℚ → ℚ) (s : Solid)
    (unitToInches : ℚ) : Option ProfileResult :=
  let axesSorted := sortAxes (extents s)
  match loopAxes at2 sqrtF s unitToInches axesSorted with
  | some r => some r
  | none =>
    match axesSorted with
    | [] => none
    | axis :: _ =>
      let bestFaceOpt :=
        match maxByArea (candidateFaces s axis) with
        | some f => some f
        | none => s.faces.head?
      match bestFaceOpt with
      | none => none
      | some bestFace =>
        some { edges := faceAllEdges at2 bestFace axis unitToInches
               wires := faceOuterEdges at2 bestFace axis unitToInches ::
                 faceInnerEdges at2 bestFace axis unitToInches
               thicknessInches := extents s axis * unitToInches
               extrusionAxis := axis }

/-- Structure `OptimizedProfile` from `optimizer.py`. -/
structure OptimizedProfile where
  edges : List Edge2D
  wires : List (List Edge2D)
  bboxW : ℚ
  bboxH : ℚ
  rotationDeg : ℚ
  thicknessInches : ℚ

/-- Source `_sample_arc_points`: both endpoints plus interior samples walking from
the start angle through the signed sweep; `n = max(8, int(|sweep|/360*64))`
steps, interior indices `1..n-1`.  `cosF`/`sinF` model `math.cos`/`math.sin`. -/
def sampleArcPoints (cosF sinF : ℚ → ℚ)
    (cx cy r startDeg sweepDeg x1 y1 x2 y2 : ℚ) : List (ℚ × ℚ) :=
  let sa := radiansOf startDeg
  let sweepRad := radiansOf sweepDeg
  let n : ℕ := max 8 (truncInt (|sweepDeg| / 360 * 64)).toNat
  [(x1, y1), (x2, y2)] ++ (List.range' 1 (n - 1)).map (fun i =>
    let a := sa + sweepRad * i / n
    (cx + r * cosF a, cy + r * sinF a))

/-- Representative points of one primitive, as collected by
`_sample_points`: line endpoints, 64 circle samples, arc samples via
`_sample_arc_points`, polyline points verbatim. -/
def sampleEdgePoints (cosF sinF : ℚ → ℚ) : Edge2D → List (ℚ × ℚ)
  | .line x1 y1 x2 y2 => [(x1, y1), (x2, y2)]
  | .circle cx cy r => (List.range 64).map (fun i =>
      let a := 2 * piApprox * i / 64
      (cx + r * cosF a, cy + r * sinF a))
  | .arc cx cy r sd sw x1 y1 x2 y2 =>
      sampleArcPoints cosF sinF cx cy r sd sw x1 y1 x2 y2
  | .polyline pts => pts

/-- Source `_sample_points`: all representative points of an edge list, in order. -/
def samplePoints (cosF sinF : ℚ → ℚ) (edges : List Edge2D) : List (ℚ × ℚ) :=
  (edges.map (sampleEdgePoints cosF sinF)).flatten

/-- Source `_find_optimal_angle` from `optimizer.py`: zero for fewer than 3 points,
otherwise the angle of the first exterior edge of shapely's minimum rotated
rectangle.  `mrr` models that shapely collaborator by returning the first
two exterior coordinates the code reads. -/
def findOptimalAngle (mrr : List (ℚ × ℚ) → (ℚ × ℚ) × (ℚ × ℚ))
    (at2 : ℚ → ℚ → ℚ) (pts : List (ℚ × ℚ)) : ℚ :=
  if pts.length < 3 then 0
  else
    degreesOf (at2 ((mrr pts).2.2 - (mrr pts).1.2) ((mrr pts).2.1 - (mrr pts).1.1))

/-- Source `_rotate_point`. -/
def rotatePoint (x y cosA sinA : ℚ) : ℚ × ℚ :=
  (x * cosA - y * sinA, x * sinA + y * cosA)

/-- Source `_rotate_edge`: a new primitive rotated by the angle with the given
cosine/sine; an arc keeps its signed sweep and shifts its start angle by
`degrees(atan2(sin_a, cos_a))` (no normalization).  The Python catch-all
`return edge` branch is unreachable for the four primitive types. -/
def rotateEdge (at2 : ℚ → ℚ → ℚ) (e : Edge2D) (cosA sinA : ℚ) : Edge2D :=
  match e with
  | .line x1 y1 x2 y2 =>
    .line (rotatePoint x1 y1 cosA sinA).1 (rotatePoint x1 y1 cosA sinA).2
          (rotatePoint x2 y2 cosA sinA).1 (rotatePoint x2 y2 cosA sinA).2
  | .circle cx cy r =>
    .circle (rotatePoint cx cy cosA sinA).1 (rotatePoint cx cy cosA sinA).2 r
  | .arc cx cy r sd sw x1 y1 x2 y2 =>
    .arc (rotatePoint cx cy cosA sinA).1 (rotatePoint cx cy cosA sinA).2 r
         (sd + degreesOf (at2 sinA cosA)) sw
         (rotatePoint x1 y1 cosA sinA).1 (rotatePoint x1 y1 cosA sinA).2
         (rotatePoint x2 y2 cosA sinA).1 (rotatePoint x2 y2 cosA sinA).2
  | .polyline pts =>
    .polyline (pts.map (fun p => rotatePoint p.1 p.2 cosA sinA))

/-- Source `_translate_edge`: a new primitive translated by `(dx, dy)`. -/
def translateEdge (e : Edge2D) (dx dy : ℚ) : Edge2D :=
  match e with
  | .line x1 y1 x2 y2 => .line (x1 + dx) (y1 + dy) (x2 + dx) (y2 + dy)
  | .circle cx cy r => .circle (cx + dx) (cy + dy) r
  | .arc cx cy r sd sw x1 y1 x2 y2 =>
    .arc (cx + dx) (cy + dy) r sd sw (x1 + dx) (y1 + dy) (x2 + dx) (y2 + dy)
  | .polyline pts => .polyline (pts.map (fun p => (p.1 + dx, p.2 + dy)))

/-- Python's `min` over a list, `none` on the empty list (where Python
raises `ValueError`). -/
def pyMin : List ℚ → Option ℚ
  | [] => none
  | x :: xs => some (xs.foldl min x)

/-- Python's `max` over a list, `none` on the empty list. -/
def pyMax : List ℚ → Option ℚ
  | [] => none
  | x :: xs => some (xs.foldl max x)

/-- The `angle_deg` local of `optimize_rotation`. -/
def optAngle (mrr : List (ℚ × ℚ) → (ℚ × ℚ) × (ℚ × ℚ)) (at2 : ℚ → ℚ → ℚ)
    (cosF sinF : ℚ → ℚ) (profile : ProfileResult) : ℚ :=
  findOptimalAngle mrr at2 (samplePoints cosF sinF profile.edges)

/-- The `cos_a` local of `optimize_rotation`: cosine of the negated angle. -/
def optCos (mrr : List (ℚ × ℚ) → (ℚ × ℚ) × (ℚ × ℚ)) (at2 : ℚ → ℚ → ℚ)
    (cosF sinF : ℚ → ℚ) (profile : ProfileResult) : ℚ :=
  cosF (radiansOf (-optAngle mrr at2 cosF sinF profile))

/-- The `sin_a` local of `optimize_rotation`. -/
def optSin (mrr : List (ℚ × ℚ) → (ℚ × ℚ) × (ℚ × ℚ)) (at2 : ℚ → ℚ → ℚ)
    (cosF sinF : ℚ → ℚ) (profile : ProfileResult) : ℚ :=
  sinF (radiansOf (-optAngle mrr at2 cosF sinF profile))

/-- The `rotated_edges` local of `optimize_rotation`. -/
def optRotated (mrr : List (ℚ × ℚ) → (ℚ × ℚ) × (ℚ × ℚ)) (at2 : ℚ → ℚ → ℚ)
    (cosF sinF : ℚ → ℚ) (profile : ProfileResult) : List Edge2D :=
  profile.edges.map (fun e => rotateEdge at2 e
    (optCos mrr at2 cosF sinF profile) (optSin mrr at2 cosF sinF profile))

/-- The `rotated_wires` local of `optimize_rotation`. -/
def optRotatedWires (mrr : List (ℚ × ℚ) → (ℚ × ℚ) × (ℚ × ℚ)) (at2 : ℚ → ℚ → ℚ)
    (cosF sinF : ℚ → ℚ) (profile : ProfileResult) : List (List Edge2D) :=
  profile.wires.map (fun w => w.map (fun e => rotateEdge at2 e
    (optCos mrr at2 cosF sinF profile) (optSin mrr at2 cosF sinF profile)))

/-- The `rotated_pts` local of `optimize_rotation`: resampled rotated edges. -/
def optPts (mrr : List (ℚ × ℚ) → (ℚ × ℚ) × (ℚ × ℚ)) (at2 : ℚ → ℚ → ℚ)
    (cosF sinF : ℚ → ℚ) (profile : ProfileResult) : List (ℚ × ℚ) :=
  samplePoints cosF sinF (optRotated mrr at2 cosF sinF profile)

/-- Source `optimize_rotation` (optimizer.py lines 133-173): sample points, find
the optimal angle, rotate all edges and wires by its negative, recompute the
bounding box by resampling, translate the minimum corner to the origin.
The locals of the Python function are the named helper defs above.
`none` models the `ValueError` raised by `min`/`max` on an empty sample. -/
def optimize_rotation (mrr : List (ℚ × ℚ) → (ℚ × ℚ) × (ℚ × ℚ))
    (at2 : ℚ → ℚ → ℚ) (cosF sinF : ℚ → ℚ) (profile : ProfileResult) :
    Option OptimizedProfile :=
  match pyMin ((optPts mrr at2 cosF sinF profile).map Prod.fst),
        pyMax ((optPts mrr at2 cosF sinF profile).map Prod.fst),
        pyMin ((optPts mrr at2 cosF sinF profile).map Prod.snd),
        pyMax ((optPts mrr at2 cosF sinF profile).map Prod.snd) with
  | some xmin, some xmax, some ymin, some ymax =>
    some { edges := (optRotated mrr at2 cosF sinF profile).map
             (fun e => translateEdge e (-xmin) (-ymin))
           wires := (optRotatedWires mrr at2 cosF sinF profile).map
             (fun w => w.map (fun e => translateEdge e (-xmin) (-ymin)))
           bboxW := xmax - xmin
           bboxH := ymax - ymin
           rotationDeg := -optAngle mrr at2 cosF sinF profile
           thicknessInches := profile.thicknessInches }
  | _, _, _, _ => none

/-- A 2D-file boundary entity as read by `dxf_min_bound/main.py`: line,
circle, arc with start/end angles in degrees, or lightweight polyline with a
bulge value per vertex. -/
inductive DxfEntity where
  | lineE (sx sy ex ey : ℚ)
  | circleE (cx cy r : ℚ)
  | arcE (cx cy r startAngle endAngle : ℚ)
  | lwpolyline (pts : List (ℚ × ℚ × ℚ))
deriving DecidableEq, Repr

/-- Source `_find_optimal_angle` from `dxf_min_bound/main.py`: the standalone 2D
tool's own copy of the optimal-angle computation. -/
def dxfFindOptimalAngle (mrr : List (ℚ × ℚ) → (ℚ × ℚ) × (ℚ × ℚ))
    (at2 : ℚ → ℚ → ℚ) (allPts : List (ℚ × ℚ)) : ℚ :=
  if allPts.length < 3 then 0
  else
    degreesOf (at2 ((mrr allPts).2.2 - (mrr allPts).1.2)
                   ((mrr allPts).2.1 - (mrr allPts).1.1))

/-- Source `_rotate_pt` from `dxf_min_bound/main.py`. -/
def dxfRotatePt (x y cosA sinA : ℚ) : ℚ × ℚ :=
  (x * cosA - y * sinA, x * sinA + y * cosA)

/-- The rotation phase of `_apply_rotation` on one entity (main.py lines
79-101): rotate stored coordinates; an arc's start/end angles are shifted by
the rotation angle and reduced `% 360`; a polyline keeps its bulges. -/
def dxfRotateEntity (e : DxfEntity) (angleDeg cosA sinA : ℚ) : DxfEntity :=
  match e with
  | .lineE sx sy ex ey =>
    .lineE (dxfRotatePt sx sy cosA sinA).1 (dxfRotatePt sx sy cosA sinA).2
           (dxfRotatePt ex ey cosA sinA).1 (dxfRotatePt ex ey cosA sinA).2
  | .circleE cx cy r =>
    .circleE (dxfRotatePt cx cy cosA sinA).1 (dxfRotatePt cx cy cosA sinA).2 r
  | .arcE cx cy r sa ea =>
    .arcE (dxfRotatePt cx cy cosA sinA).1 (dxfRotatePt cx cy cosA sinA).2 r
          (pymod (sa + angleDeg) 360) (pymod (ea + angleDeg) 360)
  | .lwpolyline pts =>
    .lwpolyline (pts.map (fun p =>
      ((dxfRotatePt p.1 p.2.1 cosA sinA).1, (dxfRotatePt p.1 p.2.1 cosA sinA).2,
       p.2.2)))

/-- The translation phase of `_apply_rotation` on one entity (main.py lines
107-117): subtract the bounding-box minimum corner from all coordinates;
angles and bulges are untouched. -/
def dxfTranslateEntity (e : DxfEntity) (ox oy : ℚ) : DxfEntity :=
  match e with
  | .lineE sx sy ex ey => .lineE (sx - ox) (sy - oy) (ex - ox) (ey - oy)
  | .circleE cx cy r => .circleE (cx - ox) (cy - oy) r
  | .arcE cx cy r sa ea => .arcE (cx - ox) (cy - oy) r sa ea
  | .lwpolyline pts => .lwpolyline (pts.map (fun p => (p.1 - ox, p.2.1 - oy, p.2.2)))

/-- Start angle stored in an `Arc2D`, `0` for other primitives. -/
def arcStartOf : Edge2D → ℚ
  | .arc _ _ _ sd _ _ _ _ _ => sd
  | _ => 0

/-- Sweep stored in an `Arc2D`, `0` for other primitives. -/
def arcSweepOf : Edge2D → ℚ
  | .arc _ _ _ _ sw _ _ _ _ => sw
  | _ => 0

/-- Start angle stored in a DXF `ARC` entity, `0` for other entities. -/
def dxfArcStartOf : DxfEntity → ℚ
  | .arcE _ _ _ sa _ => sa
  | _ => 0

/-! ## Concrete inputs used by witnesses and counterexamples -/

/-- A solid with a single non-planar face: the input the spec declares
fatal. -/
def noPlanarSolid : Solid :=
  { xmin := 0, xmax := 1, ymin := 0, ymax := 2, zmin := 0, zmax := 3
    faces := [{ isPlane := false, normal := none, area := 5
                outerWire := [], innerWires := [] }] }

/-- The face used by the C2 counterexample: a square outer boundary (side
10) with one full-circle hole, on the plane `x = 1`. -/
def rectHoleFace : Face :=
  { isPlane := true, normal := some ⟨1, 0, 0⟩, area := 100
    outerWire :=
      [.lineC 0 1 ⟨1, 0, 0⟩ ⟨1, 10, 0⟩,
       .lineC 0 1 ⟨1, 10, 0⟩ ⟨1, 10, 10⟩,
       .lineC 0 1 ⟨1, 10, 10⟩ ⟨1, 0, 10⟩,
       .lineC 0 1 ⟨1, 0, 10⟩ ⟨1, 0, 0⟩]
    innerWires :=
      [[.circleC 0 (2 * piApprox) ⟨1, 5, 5⟩ 2 ⟨1, 7, 5⟩ ⟨1, 7, 5⟩ ⟨1, 3, 5⟩]] }

/-- Solid whose thinnest axis is X and whose only face is `rectHoleFace`. -/
def rectHoleSolid : Solid :=
  { xmin := 0, xmax := 1, ymin := 0, ymax := 10, zmin := 0, zmax := 10
    faces := [rectHoleFace] }

/-- Strict order "smaller extent, ties broken by axis enumeration order". -/
def axLex (key : Axis → ℚ) (a b : Axis) : Prop :=
  key a < key b ∨ (key a = key b ∧ axIdx a < axIdx b)

/-- A cube-ish solid with a single planar circular-profile face on the
thinnest axis X, used to witness C8 concretely. -/
def simpleSolid : Solid :=
  { xmin := 0, xmax := 1, ymin := 0, ymax := 10, zmin := 0, zmax := 10
    faces := [{ isPlane := true, normal := some ⟨1, 0, 0⟩, area := 100
                outerWire :=
                  [.circleC 0 (2 * piApprox) ⟨1, 5, 5⟩ 2 ⟨1, 7, 5⟩ ⟨1, 7, 5⟩ ⟨1, 3, 5⟩]
                innerWires := [] }] }

/-- The profile the selection produces for `simpleSolid`. -/
def simpleProfile : ProfileResult :=
  { edges := [.circle 5 5 2], wires := [[.circle 5 5 2]]
    thicknessInches := 1, extrusionAxis := Axis.X }

/-- Trivial model collaborators for concrete witness inputs: a constant
minimum-rotated-rectangle result, a constant-zero `atan2`, and the exact
values of `cos`/`sin` at angle zero. -/
def mrr0 : List (ℚ × ℚ) → (ℚ × ℚ) × (ℚ × ℚ) := fun _ => ((0, 0), (0, 0))

/-- Constant-zero model of `math.atan2`. -/
def at0 : ℚ → ℚ → ℚ := fun _ _ => 0

/-- Model of `math.cos` at the only angle used by zero-angle runs. -/
def cos1 : ℚ → ℚ := fun _ => 1

/-- Model of `math.sin` at the only angle used by zero-angle runs. -/
def sin0 : ℚ → ℚ := fun _ => 0

/-- A profile holding a single line segment: exactly 2 sampled points. -/
def lineProfile : ProfileResult :=
  { edges := [.line 0 0 2 1], wires := [[.line 0 0 2 1]]
    thicknessInches := 1, extrusionAxis := Axis.Z }

/-- A profile with an empty edge list: zero sampled points. -/
def emptyProfile : ProfileResult :=
  { edges := [], wires := [], thicknessInches := 1, extrusionAxis := Axis.X }

/-- The concrete optimized profile of `lineProfile` under the trivial
collaborators. -/
def lineOpt : OptimizedProfile :=
  { edges := [.line 0 0 2 1], wires := [[.line 0 0 2 1]]
    bboxW := 2, bboxH := 1, rotationDeg := 0, thicknessInches := 1 }

/-- A model of `math.atan2` at the point `(1, 0)`: the float of `π/2`,
i.e. a 90-degree rotation. -/
def at2Ninety : ℚ → ℚ → ℚ := fun _ _ => piApprox / 2

/-! ## Supporting lemmas -/

theorem pymod_nonneg (a m : ℚ) (hm : 0 < m) : 0 ≤ pymod a m := by
  have h1 : ((⌊a / m⌋ : ℤ) : ℚ) ≤ a / m := Int.floor_le _
  have h2 : ((⌊a / m⌋ : ℤ) : ℚ) * m ≤ (a / m) * m :=
    mul_le_mul_of_nonneg_right h1 hm.le
  rw [div_mul_cancel₀ a (ne_of_gt hm)] at h2
  unfold pymod
  linarith

theorem pymod_lt (a m : ℚ) (hm : 0 < m) : pymod a m < m := by
  have h1 : a / m < ((⌊a / m⌋ : ℤ) : ℚ) + 1 := Int.lt_floor_add_one _
  have h2 : (a / m) * m < (((⌊a / m⌋ : ℤ) : ℚ) + 1) * m :=
    mul_lt_mul_of_pos_right h1 hm
  rw [div_mul_cancel₀ a (ne_of_gt hm)] at h2
  unfold pymod
  nlinarith

theorem normalizeAngle_eq_pymod (a : ℚ) : normalizeAngle a = pymod a 360 := by
  have h := pymod_nonneg a 360 (by norm_num)
  simp only [normalizeAngle]
  rw [if_neg (not_lt.mpr h)]

theorem normalizeAngle_nonneg (a : ℚ) : 0 ≤ normalizeAngle a := by
  rw [normalizeAngle_eq_pymod]
  exact pymod_nonneg a 360 (by norm_num)

theorem normalizeAngle_lt (a : ℚ) : normalizeAngle a < 360 := by
  rw [normalizeAngle_eq_pymod]
  exact pymod_lt a 360 (by norm_num)

theorem normalizeAngle_congr (a : ℚ) : ∃ k : ℤ, a = normalizeAngle a + 360 * k := by
  refine ⟨⌊a / 360⌋, ?_⟩
  rw [normalizeAngle_eq_pymod]
  unfold pymod
  ring

theorem arcSweep_bounds (s e m : ℚ) :
    0 < |arcSweep s e m| ∧ |arcSweep s e m| ≤ 360 := by
  have h0 : 0 ≤ normalizeAngle (e - s) := normalizeAngle_nonneg _
  have h1 : normalizeAngle (e - s) < 360 := normalizeAngle_lt _
  have hm0 : 0 ≤ normalizeAngle (m - s) := normalizeAngle_nonneg _
  have hm1 : normalizeAngle (m - s) < 360 := normalizeAngle_lt _
  simp only [arcSweep]
  set n0 := normalizeAngle (e - s) with hn0
  set mfs := normalizeAngle (m - s) with hmfs
  by_cases hz : n0 = 0
  · rw [if_pos hz]
    have hle : mfs ≤ (360 : ℚ) + 1/2 := by linarith
    rw [if_pos hle]
    norm_num
  · rw [if_neg hz]
    have hpos : 0 < n0 := lt_of_le_of_ne h0 (Ne.symm hz)
    by_cases hcw : mfs ≤ n0 + 1/2
    · rw [if_pos hcw, abs_of_pos hpos]
      exact ⟨hpos, h1.le⟩
    · rw [if_neg hcw]
      push_neg at hcw
      have hlt : n0 - 360 < 0 := by linarith
      rw [abs_of_neg hlt]
      constructor <;> linarith

/-- Claim C7: every `Arc2D` emitted by the curve classifier carries a signed
sweep of magnitude in `(0, 360]` (in particular never `0`), and a computed
counter-clockwise sweep of `0` is promoted to a full `360`-degree sweep. -/
theorem claim_C7_arc_sweep_invariant :
    (∀ (at2 : ℚ → ℚ → ℚ) (c : Curve3D) (axis : Axis) (scale : ℚ)
      (cx cy r sd sw x1 y1 x2 y2 : ℚ),
      processCurve at2 c axis scale = some (.arc cx cy r sd sw x1 y1 x2 y2) →
      0 < |sw| ∧ |sw| ≤ 360) ∧
    (∀ s e m : ℚ, normalizeAngle (e - s) = 0 → arcSweep s e m = 360) := by
  constructor
  · intro at2 c axis scale cx cy r sd sw x1 y1 x2 y2 h
    cases c with
    | lineC first last pF pL =>
      simp only [processCurve] at h
      split at h <;> simp_all
    | circleC first last center radius pF pL pM =>
      simp only [processCurve] at h
      split at h
      · simp at h
      · split at h
        · simp at h
        · rw [Option.some.injEq, Edge2D.arc.injEq] at h
          obtain ⟨-, -, -, -, hsw, -⟩ := h
          rw [← hsw]
          exact arcSweep_bounds _ _ _
    | otherC first last ev =>
      simp only [processCurve] at h
      split at h <;> simp_all
  · intro s e m h
    have hm1 : normalizeAngle (m - s) < 360 := normalizeAngle_lt _
    simp only [arcSweep]
    rw [h, if_pos rfl, if_pos (by linarith)]

/-- Witness for C7 at a concrete circular curve whose three angle
evaluations coincide: the emitted arc has sweep `360`, inside `(0, 360]`. -/
theorem claim_C7_witness :
    (0 < |(360 : ℚ)| ∧ |(360 : ℚ)| ≤ 360) ∧ arcSweep 0 0 0 = 360 := by
  constructor
  · refine claim_C7_arc_sweep_invariant.1 (fun _ _ => 0)
      (.circleC 0 1 ⟨0, 0, 0⟩ 1 ⟨1, 0, 0⟩ ⟨1, 0, 0⟩ ⟨-1, 0, 0⟩) .Z 1
      0 0 1 0 360 1 0 1 0 ?_
    norm_num [processCurve, dropAxis, degreesOf, arcSweep, normalizeAngle,
      pymod, piApprox, abs_of_nonneg, abs_of_nonpos]
  · refine claim_C7_arc_sweep_invariant.2 0 0 0 ?_
    norm_num [normalizeAngle, pymod]

/-- Claim C6: a circular boundary curve whose parametric span equals `2π`
within `1e-6` is always classified as a `Circle2D` with projected, scaled
center and radius, never as an arc. -/
theorem claim_C6_full_circle (at2 : ℚ → ℚ → ℚ) (first last : ℚ) (center : P3)
    (radius : ℚ) (pF pL pM : P3) (axis : Axis) (scale : ℚ)
    (h : |last - first - 2 * piApprox| < 1/1000000) :
    processCurve at2 (.circleC first last center radius pF pL pM) axis scale =
      some (.circle ((dropAxis center axis).1 * scale)
        ((dropAxis center axis).2 * scale) (radius * scale)) := by
  have hp : (6 : ℚ) < 2 * piApprox := by norm_num [piApprox]
  have habs := abs_lt.mp h
  have hspan : (1 : ℚ)/1000 ≤ last - first := by linarith
  have hns : ¬ (|last - first| < 1/1000) := by
    push_neg
    calc (1 : ℚ)/1000 ≤ last - first := hspan
    _ ≤ |last - first| := le_abs_self _
  simp only [processCurve]
  rw [if_neg hns, if_pos h]

/-- Witness for C6 at the exact-span curve `[0, 2π]`. -/
theorem claim_C6_witness :
    processCurve (fun _ _ => 0)
      (.circleC 0 (2 * piApprox) ⟨3, 4, 5⟩ 2 ⟨5, 4, 5⟩ ⟨5, 4, 5⟩ ⟨1, 4, 5⟩) .Z 1 =
      some (.circle 3 4 2) := by
  have := claim_C6_full_circle (fun _ _ => 0) 0 (2 * piApprox) ⟨3, 4, 5⟩ 2
    ⟨5, 4, 5⟩ ⟨5, 4, 5⟩ ⟨1, 4, 5⟩ .Z 1 (by norm_num)
  simpa [dropAxis] using this

theorem maxByArea_eq_none_iff (l : List Face) : maxByArea l = none ↔ l = [] := by
  cases l <;> simp [maxByArea]

theorem insertAxis_length (key : Axis → ℚ) (a : Axis) (l : List Axis) :
    (insertAxis key a l).length = l.length + 1 := by
  induction l with
  | nil => rfl
  | cons b rest ih =>
    rw [insertAxis]
    split
    · rfl
    · simp [ih]

theorem sortAxes_ne_nil (key : Axis → ℚ) : sortAxes key ≠ [] := by
  have h : (sortAxes key).length = 3 := by
    simp [sortAxes, insertAxis_length]
  intro hc
  rw [hc] at h
  simp at h

theorem candidateFaces_of_nil {s : Solid} (axis : Axis) (h : s.faces = []) :
    candidateFaces s axis = [] := by
  simp [candidateFaces, h]

theorem tryAxis_of_nil (at2 : ℚ → ℚ → ℚ) (sqrtF : ℚ → ℚ) {s : Solid} (scale : ℚ)
    (axis : Axis) (h : s.faces = []) : tryAxis at2 sqrtF s scale axis = none := by
  simp [tryAxis, candidateFaces_of_nil axis h, maxByArea]

theorem loopAxes_of_nil (at2 : ℚ → ℚ → ℚ) (sqrtF : ℚ → ℚ) {s : Solid} (scale : ℚ)
    (h : s.faces = []) : ∀ l, loopAxes at2 sqrtF s scale l = none := by
  intro l
  induction l with
  | nil => rfl
  | cons a rest ih => simp [loopAxes, tryAxis_of_nil at2 sqrtF scale a h, ih]

/-- Claim C1 (amended): `extract_profile` raises no distinguishable error
for a solid without planar faces — the fallback silently uses the first
available face; the only failing inputs are solids with no faces at all,
where the fallback's `shape.faces().vals()[0]` raises a bare `IndexError`
(modelled as `none`).  Hence a result is produced exactly when the face
list is nonempty. -/
theorem claim_C1_result_iff_faces (at2 : ℚ → ℚ → ℚ) (sqrtF : ℚ → ℚ) (s : Solid)
    (scale : ℚ) :
    (extract_profile at2 sqrtF s scale).isSome = true ↔ s.faces ≠ [] := by
  constructor
  · intro h hnil
    rw [show extract_profile at2 sqrtF s scale = none from ?_] at h
    · simp at h
    · obtain ⟨a, l, he⟩ := List.exists_cons_of_ne_nil (sortAxes_ne_nil (extents s))
      simp only [extract_profile]
      rw [loopAxes_of_nil at2 sqrtF scale hnil, he]
      simp [candidateFaces_of_nil a hnil, hnil, maxByArea]
  · intro hne
    cases hl : loopAxes at2 sqrtF s scale (sortAxes (extents s)) with
    | some r => simp [extract_profile, hl]
    | none =>
      obtain ⟨a, l, he⟩ := List.exists_cons_of_ne_nil (sortAxes_ne_nil (extents s))
      obtain ⟨f, fs, hf⟩ := List.exists_cons_of_ne_nil hne
      simp only [extract_profile]
      rw [hl, he]
      cases hmax : maxByArea (candidateFaces s a) with
      | some bf => simp [hmax]
      | none => simp [hmax, hf]

/-- Counterexample to claim C1 as stated: this solid has no planar face at
all, yet `extract_profile` returns a complete (empty-boundary) profile from
the fallback instead of reporting a fatal error. -/
theorem claim_C1_counterexample :
    (noPlanarSolid.faces.all fun f => !f.isPlane) = true ∧
    extract_profile (fun _ _ => 0) (fun q => q) noPlanarSolid 1 =
      some { edges := [], wires := [[]], thicknessInches := 1
             extrusionAxis := Axis.X } := by
  constructor
  · rfl
  · norm_num [extract_profile, sortAxes, insertAxis, extents, loopAxes, tryAxis,
      candidateFaces, maxByArea, faceAllEdges, faceOuterEdges, faceInnerEdges,
      extractEdgesFromWire, noPlanarSolid]

/-- Claim C2 (amended): a trial axis/face pair is rejected exactly when the
COMBINED edge list — outer boundary followed by all hole boundaries — is a
4-sided rectangle of line segments with all adjacent normalized direction
dot products of magnitude at most `0.05`; an axis with no candidate face is
also skipped.  Hole boundaries therefore do affect the decision. -/
theorem claim_C2_rejection_condition (at2 : ℚ → ℚ → ℚ) (sqrtF : ℚ → ℚ)
    (s : Solid) (scale : ℚ) (axis : Axis) :
    tryAxis at2 sqrtF s scale axis = none ↔
      candidateFaces s axis = [] ∨
      ∃ f, maxByArea (candidateFaces s axis) = some f ∧
        isRectangle sqrtF (faceAllEdges at2 f axis scale) = true := by
  rw [← maxByArea_eq_none_iff]
  unfold tryAxis
  cases hmax : maxByArea (candidateFaces s axis) with
  | none => simp
  | some f =>
    simp only [Option.some.injEq, reduceCtorEq, false_or]
    constructor
    · intro h
      split at h
      · exact ⟨f, rfl, by assumption⟩
      · exact absurd h (by simp)
    · rintro ⟨g, hg, hrect⟩
      cases hg
      rw [if_pos hrect]

/-- Counterexample to claim C2 as stated: the extracted OUTER boundary of
this trial axis/face pair is a perfect 4-sided rectangle of near-
perpendicular line segments, yet the pair is NOT rejected, because the
code's rectangle test runs on the combined outer-plus-holes edge list and
the hole's circle makes that list fail the all-lines/4-edges test. -/
theorem claim_C2_counterexample :
    isRectangle (fun q => q)
      (faceOuterEdges (fun _ _ => 0) rectHoleFace Axis.X 1) = true ∧
    (tryAxis (fun _ _ => 0) (fun q => q) rectHoleSolid 1 Axis.X).isSome = true := by
  constructor
  · with_unfolding_all rfl
  · with_unfolding_all rfl

theorem insertAxis_perm (key : Axis → ℚ) (a : Axis) (l : List Axis) :
    (insertAxis key a l).Perm (a :: l) := by
  induction l with
  | nil => rfl
  | cons b rest ih =>
    rw [insertAxis]
    split
    · rfl
    · exact (ih.cons b).trans (List.Perm.swap a b rest)

theorem insertAxis_pairwise {key : Axis → ℚ} {a : Axis} {l : List Axis}
    (hl : List.Pairwise (axLex key) l) (hidx : ∀ b ∈ l, axIdx a < axIdx b) :
    List.Pairwise (axLex key) (insertAxis key a l) := by
  induction l with
  | nil => simp [insertAxis]
  | cons b rest ih =>
    obtain ⟨hb, hrest⟩ := List.pairwise_cons.mp hl
    rw [insertAxis]
    split
    case isTrue h =>
      refine List.pairwise_cons.mpr ⟨?_, hl⟩
      intro c hc
      rcases List.mem_cons.mp hc with rfl | hcr
      · exact h.lt_or_eq.imp id (fun he => ⟨he, hidx c (List.mem_cons_self c rest)⟩)
      · have hbc : key b ≤ key c := by
          rcases hb c hcr with h1 | ⟨h1, -⟩
          · exact h1.le
          · exact h1.le
        exact (h.trans hbc).lt_or_eq.imp id
          (fun he => ⟨he, hidx c (List.mem_cons_of_mem b hcr)⟩)
    case isFalse h =>
      push_neg at h
      refine List.pairwise_cons.mpr
        ⟨?_, ih hrest (fun c hc => hidx c (List.mem_cons_of_mem b hc))⟩
      intro c hc
      have hc2 : c ∈ a :: rest := (insertAxis_perm key a rest).mem_iff.mp hc
      rcases List.mem_cons.mp hc2 with rfl | hcr
      · exact Or.inl h
      · exact hb c hcr

theorem sortAxes_perm (key : Axis → ℚ) :
    (sortAxes key).Perm [Axis.X, Axis.Y, Axis.Z] := by
  have h1 : (insertAxis key Axis.Z []).Perm [Axis.Z] := insertAxis_perm key _ _
  have h2 : (insertAxis key Axis.Y (insertAxis key Axis.Z [])).Perm
      [Axis.Y, Axis.Z] :=
    (insertAxis_perm key _ _).trans (h1.cons Axis.Y)
  exact (insertAxis_perm key _ _).trans (h2.cons Axis.X)

theorem sortAxes_pairwise (key : Axis → ℚ) :
    List.Pairwise (axLex key) (sortAxes key) := by
  have hZE : insertAxis key Axis.Z [] = [Axis.Z] := rfl
  have hZ : List.Pairwise (axLex key) (insertAxis key Axis.Z []) := by
    rw [hZE]
    exact List.pairwise_singleton _ _
  have hY : List.Pairwise (axLex key)
      (insertAxis key Axis.Y (insertAxis key Axis.Z [])) := by
    refine insertAxis_pairwise hZ ?_
    intro b hb
    rw [hZE] at hb
    have hb2 : b = Axis.Z := by simpa using hb
    subst hb2
    decide
  refine insertAxis_pairwise hY ?_
  intro b hb
  have hb2 : b ∈ Axis.Y :: insertAxis key Axis.Z [] :=
    (insertAxis_perm key Axis.Y _).mem_iff.mp hb
  rw [hZE] at hb2
  have hb3 : b = Axis.Y ∨ b = Axis.Z := by simpa using hb2
  rcases hb3 with rfl | rfl <;> decide

theorem loopAxes_eq_findSome (at2 : ℚ → ℚ → ℚ) (sqrtF : ℚ → ℚ) (s : Solid)
    (scale : ℚ) (l : List Axis) :
    loopAxes at2 sqrtF s scale l = l.findSome? (tryAxis at2 sqrtF s scale) := by
  induction l with
  | nil => rfl
  | cons a rest ih =>
    rw [loopAxes, List.findSome?_cons]
    cases tryAxis at2 sqrtF s scale a <;> simp [ih]

/-- Claim C8: axis/face selection sorts the three axes ascending by extent
with ties broken in enumeration order X, Y, Z, walks them in that order,
and deterministically returns the first axis whose candidate-face set is
nonempty and whose extracted edges survive the rectangle-rejection check;
the returned profile is labelled with that axis. -/
theorem claim_C8_axis_order (at2 : ℚ → ℚ → ℚ) (sqrtF : ℚ → ℚ) (s : Solid)
    (scale : ℚ) :
    (sortAxes (extents s)).Perm [Axis.X, Axis.Y, Axis.Z] ∧
    List.Pairwise (axLex (extents s)) (sortAxes (extents s)) ∧
    loopAxes at2 sqrtF s scale (sortAxes (extents s)) =
      (sortAxes (extents s)).findSome? (tryAxis at2 sqrtF s scale) ∧
    (∀ r, loopAxes at2 sqrtF s scale (sortAxes (extents s)) = some r →
      extract_profile at2 sqrtF s scale = some r) ∧
    (∀ axis r, tryAxis at2 sqrtF s scale axis = some r →
      r.extrusionAxis = axis ∧ candidateFaces s axis ≠ [] ∧
      isRectangle sqrtF r.edges = false) := by
  refine ⟨sortAxes_perm _, sortAxes_pairwise _, loopAxes_eq_findSome _ _ _ _ _,
    ?_, ?_⟩
  · intro r hr
    simp [extract_profile, hr]
  · intro axis r hr
    unfold tryAxis at hr
    cases hmax : maxByArea (candidateFaces s axis) with
    | none =>
      simp only [hmax] at hr
      exact Option.noConfusion hr
    | some f =>
      simp only [hmax] at hr
      by_cases hrect : isRectangle sqrtF (faceAllEdges at2 f axis scale) = true
      · rw [if_pos hrect] at hr
        exact absurd hr (by simp)
      · rw [if_neg hrect] at hr
        rw [Option.some.injEq] at hr
        subst hr
        refine ⟨rfl, ?_, ?_⟩
        · intro hnil
          rw [(maxByArea_eq_none_iff _).mpr hnil] at hmax
          simp at hmax
        · simp only [Bool.not_eq_true] at hrect
          exact hrect

/-- Witness for C8: at `simpleSolid` the loop accepts axis X first and
`extract_profile` returns exactly its profile, labelled with axis X. -/
theorem claim_C8_witness :
    extract_profile (fun _ _ => 0) (fun q => q) simpleSolid 1 =
      some simpleProfile ∧
    simpleProfile.extrusionAxis = Axis.X ∧
    candidateFaces simpleSolid Axis.X ≠ [] := by
  have h := claim_C8_axis_order (fun _ _ => 0) (fun q => q) simpleSolid 1
  have hloop : loopAxes (fun _ _ => 0) (fun q => q) simpleSolid 1
      (sortAxes (extents simpleSolid)) = some simpleProfile := by
    with_unfolding_all rfl
  have htry : tryAxis (fun _ _ => 0) (fun q => q) simpleSolid 1 Axis.X =
      some simpleProfile := by
    with_unfolding_all rfl
  exact ⟨h.2.2.2.1 simpleProfile hloop, (h.2.2.2.2 Axis.X simpleProfile htry).1,
    (h.2.2.2.2 Axis.X simpleProfile htry).2.1⟩

theorem min_add_const (a b c : ℚ) : min (a + c) (b + c) = min a b + c := by
  rcases le_total a b with h | h
  · rw [min_eq_left h, min_eq_left (by linarith)]
  · rw [min_eq_right h, min_eq_right (by linarith)]

theorem max_add_const (a b c : ℚ) : max (a + c) (b + c) = max a b + c := by
  rcases le_total a b with h | h
  · rw [max_eq_right h, max_eq_right (by linarith)]
  · rw [max_eq_left h, max_eq_left (by linarith)]

theorem foldl_min_add (c : ℚ) :
    ∀ (xs : List ℚ) (x : ℚ),
      (xs.map (fun v => v + c)).foldl min (x + c) = xs.foldl min x + c := by
  intro xs
  induction xs with
  | nil => intro x; rfl
  | cons y ys ih =>
    intro x
    simp only [List.map_cons, List.foldl_cons]
    rw [min_add_const]
    exact ih _

theorem foldl_max_add (c : ℚ) :
    ∀ (xs : List ℚ) (x : ℚ),
      (xs.map (fun v => v + c)).foldl max (x + c) = xs.foldl max x + c := by
  intro xs
  induction xs with
  | nil => intro x; rfl
  | cons y ys ih =>
    intro x
    simp only [List.map_cons, List.foldl_cons]
    rw [max_add_const]
    exact ih _

theorem pyMin_map_add (l : List ℚ) (c : ℚ) :
    pyMin (l.map (fun v => v + c)) = (pyMin l).map (fun v => v + c) := by
  cases l with
  | nil => rfl
  | cons x xs => simp [pyMin, foldl_min_add]

theorem pyMax_map_add (l : List ℚ) (c : ℚ) :
    pyMax (l.map (fun v => v + c)) = (pyMax l).map (fun v => v + c) := by
  cases l with
  | nil => rfl
  | cons x xs => simp [pyMax, foldl_max_add]

theorem samplePoints_nil (cosF sinF : ℚ → ℚ) : samplePoints cosF sinF [] = [] := rfl

theorem samplePoints_cons (cosF sinF : ℚ → ℚ) (e : Edge2D) (es : List Edge2D) :
    samplePoints cosF sinF (e :: es) =
      sampleEdgePoints cosF sinF e ++ samplePoints cosF sinF es := by
  simp [samplePoints]

theorem sampleEdgePoints_translate (cosF sinF : ℚ → ℚ) (e : Edge2D) (dx dy : ℚ) :
    sampleEdgePoints cosF sinF (translateEdge e dx dy) =
      (sampleEdgePoints cosF sinF e).map (fun p => (p.1 + dx, p.2 + dy)) := by
  cases e with
  | line x1 y1 x2 y2 => rfl
  | circle cx cy r =>
    simp only [translateEdge, sampleEdgePoints, List.map_map]
    refine List.map_congr_left fun i hi => ?_
    simp only [Function.comp_apply, Prod.mk.injEq]
    constructor <;> ring
  | arc cx cy r sd sw x1 y1 x2 y2 =>
    simp only [translateEdge, sampleEdgePoints, sampleArcPoints, List.map_append,
      List.map_map, List.map_cons, List.map_nil]
    refine congrArg (HAppend.hAppend _) ?_
    refine List.map_congr_left fun i hi => ?_
    simp only [Function.comp_apply, Prod.mk.injEq]
    constructor <;> ring
  | polyline pts => rfl

theorem samplePoints_translate (cosF sinF : ℚ → ℚ) (edges : List Edge2D)
    (dx dy : ℚ) :
    samplePoints cosF sinF (edges.map (fun e => translateEdge e dx dy)) =
      (samplePoints cosF sinF edges).map (fun p => (p.1 + dx, p.2 + dy)) := by
  induction edges with
  | nil => rfl
  | cons e es ih =>
    rw [List.map_cons, samplePoints_cons, samplePoints_cons, List.map_append,
      sampleEdgePoints_translate, ih]

theorem sampleEdgePoints_rotate_length (cosF sinF : ℚ → ℚ) (at2 : ℚ → ℚ → ℚ)
    (e : Edge2D) (cA sA : ℚ) :
    (sampleEdgePoints cosF sinF (rotateEdge at2 e cA sA)).length =
      (sampleEdgePoints cosF sinF e).length := by
  cases e <;> simp [rotateEdge, sampleEdgePoints, sampleArcPoints]

theorem samplePoints_rotate_length (cosF sinF : ℚ → ℚ) (at2 : ℚ → ℚ → ℚ)
    (edges : List Edge2D) (cA sA : ℚ) :
    (samplePoints cosF sinF (edges.map (fun e => rotateEdge at2 e cA sA))).length =
      (samplePoints cosF sinF edges).length := by
  induction edges with
  | nil => rfl
  | cons e es ih =>
    rw [List.map_cons, samplePoints_cons, samplePoints_cons, List.length_append,
      List.length_append, sampleEdgePoints_rotate_length, ih]

theorem optPts_length (mrr : List (ℚ × ℚ) → (ℚ × ℚ) × (ℚ × ℚ))
    (at2 : ℚ → ℚ → ℚ) (cosF sinF : ℚ → ℚ) (p : ProfileResult) :
    (optPts mrr at2 cosF sinF p).length =
      (samplePoints cosF sinF p.edges).length := by
  unfold optPts optRotated
  exact samplePoints_rotate_length cosF sinF at2 p.edges _ _

/-- Running `optimize_rotation` on a profile with at least one sampled point
always succeeds, and produces exactly the translated rotation of the input
by the computed bounding-box offsets. -/
theorem optimize_rotation_run (mrr : List (ℚ × ℚ) → (ℚ × ℚ) × (ℚ × ℚ))
    (at2 : ℚ → ℚ → ℚ) (cosF sinF : ℚ → ℚ) (p : ProfileResult)
    (h : samplePoints cosF sinF p.edges ≠ []) :
    ∃ xmin xmax ymin ymax : ℚ,
      pyMin ((optPts mrr at2 cosF sinF p).map Prod.fst) = some xmin ∧
      pyMax ((optPts mrr at2 cosF sinF p).map Prod.fst) = some xmax ∧
      pyMin ((optPts mrr at2 cosF sinF p).map Prod.snd) = some ymin ∧
      pyMax ((optPts mrr at2 cosF sinF p).map Prod.snd) = some ymax ∧
      optimize_rotation mrr at2 cosF sinF p = some
        { edges := (optRotated mrr at2 cosF sinF p).map
            (fun e => translateEdge e (-xmin) (-ymin))
          wires := (optRotatedWires mrr at2 cosF sinF p).map
            (fun w => w.map (fun e => translateEdge e (-xmin) (-ymin)))
          bboxW := xmax - xmin
          bboxH := ymax - ymin
          rotationDeg := -optAngle mrr at2 cosF sinF p
          thicknessInches := p.thicknessInches } := by
  have hne : optPts mrr at2 cosF sinF p ≠ [] := by
    intro hc
    apply h
    have := optPts_length mrr at2 cosF sinF p
    rw [hc] at this
    exact List.eq_nil_of_length_eq_zero this.symm
  obtain ⟨q, qs, hq⟩ := List.exists_cons_of_ne_nil hne
  have hx1 : pyMin ((optPts mrr at2 cosF sinF p).map Prod.fst) =
      some ((qs.map Prod.fst).foldl min q.1) := by rw [hq]; rfl
  have hx2 : pyMax ((optPts mrr at2 cosF sinF p).map Prod.fst) =
      some ((qs.map Prod.fst).foldl max q.1) := by rw [hq]; rfl
  have hy1 : pyMin ((optPts mrr at2 cosF sinF p).map Prod.snd) =
      some ((qs.map Prod.snd).foldl min q.2) := by rw [hq]; rfl
  have hy2 : pyMax ((optPts mrr at2 cosF sinF p).map Prod.snd) =
      some ((qs.map Prod.snd).foldl max q.2) := by rw [hq]; rfl
  refine ⟨_, _, _, _, hx1, hx2, hy1, hy2, ?_⟩
  unfold optimize_rotation
  rw [hx1, hx2, hy1, hy2]

/-- Claim C9: for every profile with at least one sampled point,
`optimize_rotation` succeeds and the resampled output primitives have
minimum X and minimum Y exactly 0, while `bbox_w`/`bbox_h` equal the
rotated geometry's extents (equivalently, since the minimum corner is the
origin, the maxima of the output samples). -/
theorem claim_C9_min_corner (mrr : List (ℚ × ℚ) → (ℚ × ℚ) × (ℚ × ℚ))
    (at2 : ℚ → ℚ → ℚ) (cosF sinF : ℚ → ℚ) (p : ProfileResult)
    (h : samplePoints cosF sinF p.edges ≠ []) :
    ∃ o, optimize_rotation mrr at2 cosF sinF p = some o ∧
      pyMin ((samplePoints cosF sinF o.edges).map Prod.fst) = some 0 ∧
      pyMin ((samplePoints cosF sinF o.edges).map Prod.snd) = some 0 ∧
      pyMax ((samplePoints cosF sinF o.edges).map Prod.fst) = some o.bboxW ∧
      pyMax ((samplePoints cosF sinF o.edges).map Prod.snd) = some o.bboxH := by
  obtain ⟨xmin, xmax, ymin, ymax, hx1, hx2, hy1, hy2, hopt⟩ :=
    optimize_rotation_run mrr at2 cosF sinF p h
  have hs : samplePoints cosF sinF
      ((optRotated mrr at2 cosF sinF p).map
        (fun e => translateEdge e (-xmin) (-ymin))) =
      (optPts mrr at2 cosF sinF p).map (fun q => (q.1 + -xmin, q.2 + -ymin)) :=
    samplePoints_translate cosF sinF _ _ _
  have hfst : (samplePoints cosF sinF
      ((optRotated mrr at2 cosF sinF p).map
        (fun e => translateEdge e (-xmin) (-ymin)))).map Prod.fst =
      ((optPts mrr at2 cosF sinF p).map Prod.fst).map (fun v => v + -xmin) := by
    rw [hs, List.map_map, List.map_map]
    exact List.map_congr_left fun q hq => rfl
  have hsnd : (samplePoints cosF sinF
      ((optRotated mrr at2 cosF sinF p).map
        (fun e => translateEdge e (-xmin) (-ymin)))).map Prod.snd =
      ((optPts mrr at2 cosF sinF p).map Prod.snd).map (fun v => v + -ymin) := by
    rw [hs, List.map_map, List.map_map]
    exact List.map_congr_left fun q hq => rfl
  refine ⟨_, hopt, ?_, ?_, ?_, ?_⟩
  · dsimp only
    rw [hfst, pyMin_map_add, hx1]
    exact congrArg some (by ring)
  · dsimp only
    rw [hsnd, pyMin_map_add, hy1]
    exact congrArg some (by ring)
  · dsimp only
    rw [hfst, pyMax_map_add, hx2]
    exact congrArg some (by ring)
  · dsimp only
    rw [hsnd, pyMax_map_add, hy2]
    exact congrArg some (by ring)

theorem lineProfile_sample :
    samplePoints cos1 sin0 lineProfile.edges = [(0, 0), (2, 1)] := by
  with_unfolding_all rfl

/-- Witness for C9 on the single-line profile. -/
theorem claim_C9_witness :
    samplePoints cos1 sin0 lineProfile.edges ≠ [] ∧
    ∃ o, optimize_rotation mrr0 at0 cos1 sin0 lineProfile = some o ∧
      pyMin ((samplePoints cos1 sin0 o.edges).map Prod.fst) = some 0 ∧
      pyMin ((samplePoints cos1 sin0 o.edges).map Prod.snd) = some 0 ∧
      pyMax ((samplePoints cos1 sin0 o.edges).map Prod.fst) = some o.bboxW ∧
      pyMax ((samplePoints cos1 sin0 o.edges).map Prod.snd) = some o.bboxH :=
  ⟨by rw [lineProfile_sample]; exact List.cons_ne_nil _ _,
   claim_C9_min_corner mrr0 at0 cos1 sin0 lineProfile
     (by rw [lineProfile_sample]; exact List.cons_ne_nil _ _)⟩

/-- Claim C3 (amended): with fewer than 3 sampled points the optimizer's
angle is 0 and — provided at least one point was sampled — a complete
`OptimizedProfile` with rotation 0 is returned.  (With zero sampled points
`optimize_rotation` raises instead; see the counterexample.) -/
theorem claim_C3_few_points (mrr : List (ℚ × ℚ) → (ℚ × ℚ) × (ℚ × ℚ))
    (at2 : ℚ → ℚ → ℚ) (cosF sinF : ℚ → ℚ) (p : ProfileResult)
    (h1 : samplePoints cosF sinF p.edges ≠ [])
    (h2 : (samplePoints cosF sinF p.edges).length < 3) :
    findOptimalAngle mrr at2 (samplePoints cosF sinF p.edges) = 0 ∧
    ∃ o, optimize_rotation mrr at2 cosF sinF p = some o ∧ o.rotationDeg = 0 := by
  have hang : findOptimalAngle mrr at2 (samplePoints cosF sinF p.edges) = 0 := by
    unfold findOptimalAngle
    rw [if_pos h2]
  refine ⟨hang, ?_⟩
  obtain ⟨xmin, xmax, ymin, ymax, -, -, -, -, hopt⟩ :=
    optimize_rotation_run mrr at2 cosF sinF p h1
  refine ⟨_, hopt, ?_⟩
  dsimp only
  have hoa : optAngle mrr at2 cosF sinF p = 0 := hang
  rw [hoa, neg_zero]

/-- Counterexample to claim C3 as stated: on the empty-edge profile zero
points are sampled and `optimize_rotation` raises (`min()` of an empty
sequence, modelled as `none`) instead of returning a complete profile. -/
theorem claim_C3_counterexample :
    samplePoints cos1 sin0 emptyProfile.edges = [] ∧
    optimize_rotation mrr0 at0 cos1 sin0 emptyProfile = none :=
  ⟨rfl, by with_unfolding_all rfl⟩

/-- Witness for C3 on the two-point line profile. -/
theorem claim_C3_witness :
    findOptimalAngle mrr0 at0 (samplePoints cos1 sin0 lineProfile.edges) = 0 ∧
    ∃ o, optimize_rotation mrr0 at0 cos1 sin0 lineProfile = some o ∧
      o.rotationDeg = 0 :=
  claim_C3_few_points mrr0 at0 cos1 sin0 lineProfile
    (by rw [lineProfile_sample]; exact List.cons_ne_nil _ _)
    (by rw [lineProfile_sample]; norm_num)

/-- Claim C10: `optimize_rotation` builds its output purely from the input:
every output primitive is the rotated-then-translated image of the
corresponding input primitive (and in this pure embedding the input value
is untouched by construction); thickness is passed through and the reported
rotation is the negated optimal angle. -/
theorem claim_C10_fresh_output (mrr : List (ℚ × ℚ) → (ℚ × ℚ) × (ℚ × ℚ))
    (at2 : ℚ → ℚ → ℚ) (cosF sinF : ℚ → ℚ) (p : ProfileResult)
    (o : OptimizedProfile) (h : optimize_rotation mrr at2 cosF sinF p = some o) :
    ∃ dx dy : ℚ,
      o.edges = p.edges.map (fun e => translateEdge
        (rotateEdge at2 e (optCos mrr at2 cosF sinF p)
          (optSin mrr at2 cosF sinF p)) dx dy) ∧
      o.wires = p.wires.map (fun w => w.map (fun e => translateEdge
        (rotateEdge at2 e (optCos mrr at2 cosF sinF p)
          (optSin mrr at2 cosF sinF p)) dx dy)) ∧
      o.rotationDeg = -optAngle mrr at2 cosF sinF p ∧
      o.thicknessInches = p.thicknessInches := by
  unfold optimize_rotation at h
  split at h
  case h_1 xmin xmax ymin ymax hx1 hx2 hy1 hy2 =>
    rw [Option.some.injEq] at h
    subst h
    refine ⟨-xmin, -ymin, ?_, ?_, rfl, rfl⟩
    · dsimp only
      unfold optRotated
      rw [List.map_map]
      rfl
    · dsimp only
      unfold optRotatedWires
      rw [List.map_map]
      refine List.map_congr_left fun w hw => ?_
      rw [Function.comp_apply, List.map_map]
      rfl
  case h_2 =>
    exact Option.noConfusion h

theorem lineProfile_opt :
    optimize_rotation mrr0 at0 cos1 sin0 lineProfile = some lineOpt := by
  with_unfolding_all rfl

/-- Witness for C10 on the single-line profile. -/
theorem claim_C10_witness :
    ∃ dx dy : ℚ,
      lineOpt.edges = lineProfile.edges.map (fun e => translateEdge
        (rotateEdge at0 e (optCos mrr0 at0 cos1 sin0 lineProfile)
          (optSin mrr0 at0 cos1 sin0 lineProfile)) dx dy) ∧
      lineOpt.wires = lineProfile.wires.map (fun w => w.map (fun e => translateEdge
        (rotateEdge at0 e (optCos mrr0 at0 cos1 sin0 lineProfile)
          (optSin mrr0 at0 cos1 sin0 lineProfile)) dx dy)) ∧
      lineOpt.rotationDeg = -optAngle mrr0 at0 cos1 sin0 lineProfile ∧
      lineOpt.thicknessInches = lineProfile.thicknessInches :=
  claim_C10_fresh_output mrr0 at0 cos1 sin0 lineProfile lineOpt lineProfile_opt

/-- Claim C4 (amended): rotating an `Arc2D` preserves its signed sweep
exactly and sets the new start angle to `start + degrees(atan2(sin, cos))`
WITHOUT reducing modulo 360; the stored start angle is congruent to
`(start + φ) mod 360` — it differs from it by an integer multiple of 360 —
but is not normalized into `[0, 360)`. -/
theorem claim_C4_arc_rotation (at2 : ℚ → ℚ → ℚ)
    (cx cy r sd sw x1 y1 x2 y2 cosA sinA : ℚ) :
    rotateEdge at2 (.arc cx cy r sd sw x1 y1 x2 y2) cosA sinA =
      .arc (rotatePoint cx cy cosA sinA).1 (rotatePoint cx cy cosA sinA).2 r
        (sd + degreesOf (at2 sinA cosA)) sw
        (rotatePoint x1 y1 cosA sinA).1 (rotatePoint x1 y1 cosA sinA).2
        (rotatePoint x2 y2 cosA sinA).1 (rotatePoint x2 y2 cosA sinA).2 ∧
    arcSweepOf (rotateEdge at2 (.arc cx cy r sd sw x1 y1 x2 y2) cosA sinA) = sw ∧
    ∃ k : ℤ, arcStartOf (rotateEdge at2 (.arc cx cy r sd sw x1 y1 x2 y2) cosA sinA) =
      normalizeAngle (sd + degreesOf (at2 sinA cosA)) + 360 * k := by
  refine ⟨rfl, rfl, ?_⟩
  have h := normalizeAngle_congr (sd + degreesOf (at2 sinA cosA))
  obtain ⟨k, hk⟩ := h
  exact ⟨k, hk⟩

/-- Counterexample to claim C4 as stated: rotating an arc with start angle
300 by 90 degrees stores start angle 390, not `(300 + 90) mod 360 = 30`. -/
theorem claim_C4_counterexample :
    rotateEdge at2Ninety (.arc 0 0 1 300 40 1 0 0 1) 0 1 =
      .arc 0 0 1 390 40 0 1 (-1) 0 ∧
    normalizeAngle (300 + degreesOf (at2Ninety 1 0)) = 30 ∧
    (390 : ℚ) ≠ 30 := by
  refine ⟨by with_unfolding_all rfl, by with_unfolding_all rfl, by norm_num⟩

/-- Claim C5 (amended): the standalone 2D tool's optimal-angle computation
is identical to the optimizer's, and both rotate point coordinates by the
identical formula; but rotated arc angles are stored differently — the 2D
tool reduces them modulo 360 while the optimizer leaves the shifted start
angle unnormalized — so stored arc angles agree only modulo 360. -/
theorem claim_C5_2d_tool_equivalence :
    (∀ (mrr : List (ℚ × ℚ) → (ℚ × ℚ) × (ℚ × ℚ)) (at2 : ℚ → ℚ → ℚ)
      (pts : List (ℚ × ℚ)),
      dxfFindOptimalAngle mrr at2 pts = findOptimalAngle mrr at2 pts) ∧
    (∀ x y cosA sinA : ℚ, dxfRotatePt x y cosA sinA = rotatePoint x y cosA sinA) ∧
    (∀ (at2 : ℚ → ℚ → ℚ) (cosA sinA angleDeg cx cy r sa ea sw x1 y1 x2 y2 : ℚ),
      degreesOf (at2 sinA cosA) = angleDeg →
      dxfArcStartOf (dxfRotateEntity (.arcE cx cy r sa ea) angleDeg cosA sinA) =
        normalizeAngle (arcStartOf
          (rotateEdge at2 (.arc cx cy r sa sw x1 y1 x2 y2) cosA sinA))) := by
  refine ⟨fun mrr at2 pts => rfl, fun x y cosA sinA => rfl, ?_⟩
  intro at2 cosA sinA angleDeg cx cy r sa ea sw x1 y1 x2 y2 h
  simp only [dxfRotateEntity, dxfArcStartOf, rotateEdge, arcStartOf]
  rw [h, normalizeAngle_eq_pymod]

/-- Witness for C5's arc congruence at the concrete 90-degree rotation. -/
theorem claim_C5_witness :
    dxfArcStartOf (dxfRotateEntity (.arcE 0 0 1 350 30) 90 0 1) =
      normalizeAngle (arcStartOf
        (rotateEdge at2Ninety (.arc 0 0 1 350 40 1 0 0 1) 0 1)) :=
  claim_C5_2d_tool_equivalence.2.2 at2Ninety 0 1 90 0 0 1 350 30 40 1 0 0 1
    (by with_unfolding_all rfl)

/-- Counterexample to claim C5 as stated: rotating the same geometric arc
(start 350, CCW extent 40) by the same 90 degrees, the 2D tool stores start
angle 80 (mod-360-reduced) while the optimizer stores 440 — the produced
geometry records are not identical. -/
theorem claim_C5_counterexample :
    dxfRotateEntity (.arcE 0 0 1 350 30) 90 0 1 = .arcE 0 0 1 80 120 ∧
    rotateEdge at2Ninety (.arc 0 0 1 350 40 1 0 0 1) 0 1 =
      .arc 0 0 1 440 40 0 1 (-1) 0 ∧
    dxfArcStartOf (.arcE 0 0 1 80 120) ≠
      arcStartOf (.arc 0 0 1 440 40 0 1 (-1) 0) := by
  refine ⟨by with_unfolding_all rfl, by with_unfolding_all rfl, ?_⟩
  simp only [dxfArcStartOf, arcStartOf]
  norm_num

end DrawMySTEP
